import Mathlib

/-!
Verification of the beam-deconvolution engine of the pvanalysis package,
shallowly embedded from pvanalysis/pvfits.py over the real numbers.

Modelling conventions.
* numpy float arrays become lists of real numbers.  Where IEEE NaN matters
  (the Gaussian-fit parameters and NaN entries of a fitted row), a float is
  modelled as Option ℝ with none playing the role of NaN: a NaN-comparison
  is False and np.isnan tests for none.
* The scipy-based fitting routines live in the module pvanalysis.fitfuncs,
  which is not part of the sources; the iterative solvers gaussfit and
  complexgaussfit are treated as oracles (function parameters of the
  embedding), while the closed-form model functions gauss1d and
  complexgauss1d are modelled from the spec (see their doc comments).
* The embedding covers the single-beam code path (multibeam = False);
  none of the claims exercises the per-channel multibeam branches.
* Python exceptions (TypeError on comparing or multiplying None, IndexError
  on an empty index list) are explicit error outcomes of the embedding, in
  the order in which the interpreter would raise them; the call can only
  reach its normal end by storing the deconvolved array.
* Real division by zero is a non-issue for the claims below: every claim
  that divides carries the positivity hypotheses under which numpy would
  also produce finite values.
-/

noncomputable section

open Real

/-- Modelled from the spec: the real-space 1D Gaussian model of the module
pvanalysis.fitfuncs, which is not under the sources.  Spec §4.4 gives the
functional form a·exp(−(x−mn)²/(2σ²)). -/
def gauss1d (x a mn sig : ℝ) : ℝ :=
  a * Real.exp (-(x - mn) ^ 2 / (2 * sig ^ 2))

/-- pvfits.get_1dresolution (pvfits.py lines 649-665):
del_pa = radians(pa - bpa); 1/hypot(sin(del_pa)/bmin, cos(del_pa)/bmaj),
with hypot a b = sqrt (a² + b²). -/
def get_1dresolution (pa bmaj bmin bpa : ℝ) : ℝ :=
  1 / Real.sqrt ((Real.sin ((pa - bpa) * (π / 180)) / bmin) ^ 2
    + (Real.cos ((pa - bpa) * (π / 180)) / bmaj) ^ 2)

/-- pvfits.py line 314: sigma_beam_fft = (2·sqrt(2 ln 2))/(res_off·π·2),
the Fourier-domain width of the beam Gaussian. -/
def sigma_beam_fft (res_off : ℝ) : ℝ :=
  (2 * Real.sqrt (2 * Real.log 2)) / (res_off * π * 2)

/-- pvfits.py lines 334-336 (gauss mode), for one channel:
g_deconv_sig2 = (2π·sig)² − (1/sigma_beam_fft)²; entries < 0 are set to 0;
g_deconv_sig = sqrt(g_deconv_sig2)/(2π). -/
def gauss_deconv_sig (sig sbf : ℝ) : ℝ :=
  Real.sqrt (if (2 * π * sig) ^ 2 - (1 / sbf) ^ 2 < 0 then 0
    else (2 * π * sig) ^ 2 - (1 / sbf) ^ 2) / (2 * π)

/-- pvfits.py lines 272-277, zero_division, elementwise: a/b when b ≠ 0,
signed infinity (sign from the numerator, with +∞ for a = 0) when b = 0.
The infinities are modelled in the extended reals. -/
def zero_division (a b : ℝ) : EReal :=
  if b ≠ 0 then ((a / b : ℝ) : EReal)
  else if a < 0 then ⊥ else ⊤

/-- np.argmin for a 1D array: index of the first minimal element
(0 on an empty array, where numpy would raise). -/
def np_argmin : List ℝ → ℕ
  | [] => 0
  | x :: xs => if ∀ y ∈ xs, x ≤ y then 0 else np_argmin xs + 1

/-- np.nanmax for a 1D array without NaN entries: the maximum.
(On an empty array numpy raises; the rows fed to it are nonempty under the
nx ≥ 1 invariant of the data model, and the theorems below assume so.) -/
def np_nanmax (l : List ℝ) : ℝ := l.foldl max (l.headD 0)

/-- pvfits.py lines 266-270, get_pointsolution: a zero row of the length of
the offset axis with value f at the sample nearest to x0 (np.argmin of the
distances, i.e. the first nearest sample). -/
def get_pointsolution (x : List ℝ) (x0 f : ℝ) : List ℝ :=
  (List.range x.length).map fun i =>
    if i = np_argmin (x.map fun xi => |xi - x0|) then f else 0

/-- IEEE comparison of a possibly-NaN float with zero: NaN < 0 is False. -/
def nan_lt_zero (o : Option ℝ) : Bool :=
  match o with
  | none => false
  | some v => decide (v < 0)

/-- Oracle type for fitfuncs.gaussfit (scipy nonlinear least squares, not
under the sources): x values, data values and the initial guess map to the
best-fit (amplitude, mean, sigma), any of which may come back NaN. -/
abbrev GaussFitOracle : Type :=
  List ℝ → List ℝ → ℝ × ℝ × ℝ → Option ℝ × Option ℝ × Option ℝ

/-- Oracle type for fitfuncs.complexgaussfit (not under the sources):
frequencies, complex data, weights and the initial guess map to the
best-fit (amplitude, mean, sigma, phase), or none when the solve comes
back with a NaN component. -/
abbrev CGaussFitOracle : Type :=
  List ℝ → List ℂ → List ℂ → ℝ × ℝ × ℝ × ℝ → Option (ℝ × ℝ × ℝ × ℝ)

/-- pvfits.py lines 243-259, get_gaussiansolution with get_params=True:
drop NaN samples; if every remaining datum is exactly zero return the
parameters {0,0,0} without calling the fitter, otherwise call gaussfit
seeded with {max d, weighted mean, weighted std}. -/
def get_gaussiansolution_params (fit : GaussFitOracle) (xin : List ℝ)
    (din : List (Option ℝ)) : Option ℝ × Option ℝ × Option ℝ :=
  let pairs := (xin.zip din).filterMap fun p => p.2.map fun v => (p.1, v)
  let xs := pairs.map Prod.fst
  let ds := pairs.map Prod.snd
  if ∀ v ∈ ds, v = 0 then (some 0, some 0, some 0)
  else
    fit xs ds (np_nanmax ds,
      (List.zipWith (fun d x => d * x) ds xs).sum / ds.sum,
      Real.sqrt ((List.zipWith (fun d x =>
          d * ((List.zipWith (fun d x => d * x) ds xs).sum / ds.sum - x) ^ 2)
        ds xs).sum / ds.sum))

/-- pvfits.py lines 319-324 (gauss mode), the per-row gate: rows whose
non-NaN peak is at least sigmacut are fitted, the rest get {0,0,0}.
This is the gate after the sigmacut=None TypeError has been ruled out,
so the threshold is a real number here. -/
def gauss_gate_row (fit : GaussFitOracle) (c : ℝ) (xv : List ℝ)
    (row : List ℝ) : Option ℝ × Option ℝ × Option ℝ :=
  if np_nanmax row ≥ c then get_gaussiansolution_params fit xv (row.map some)
  else (some 0, some 0, some 0)

/-- pvfits.py lines 329-331: for gi in g_.T: gi[(g_a < 0) | isnan(gi)] = 0.
The three columns are zeroed in order and g_a is a live view of the first
column, so when the mean and sigma columns are processed the amplitude
column has already been zeroed: their masks see no negative amplitudes any
more, only their own NaNs.  The loop is elementwise across rows, so it is
embedded as a per-row function. -/
def fixRow (t : Option ℝ × Option ℝ × Option ℝ) : ℝ × ℝ × ℝ :=
  let a1 : Option ℝ := if nan_lt_zero t.1 ∨ t.1 = none then some 0 else t.1
  let mn1 : Option ℝ := if nan_lt_zero a1 ∨ t.2.1 = none then some 0 else t.2.1
  let sig1 : Option ℝ := if nan_lt_zero a1 ∨ t.2.2 = none then some 0 else t.2.2
  (a1.getD 0, mn1.getD 0, sig1.getD 0)

/-- pvfits.py lines 341-347, one channel of the gauss-mode reconstruction
(before the Jy/beam → Jy/pixel renormalization): a Gaussian with the
deconvolved parameters on the full offset axis when the deconvolved sigma
is nonzero, else a point source at the sample nearest the fitted mean with
value a·sqrt(2π)·g_deconv_sig (note: the deconvolved sigma, which is zero
on this branch).  The deconvolved amplitude zero_division(a·sig, dsig) is
finite on the Gaussian branch, where the divisor is nonzero. -/
def gauss_deconv_row (fullx : List ℝ) (sbf : ℝ) (p : ℝ × ℝ × ℝ) : List ℝ :=
  if gauss_deconv_sig p.2.2 sbf ≠ 0 then
    fullx.map fun x =>
      gauss1d x (zero_division (p.1 * p.2.2) (gauss_deconv_sig p.2.2 sbf)).toReal
        p.2.1 (gauss_deconv_sig p.2.2 sbf)
  else
    get_pointsolution fullx p.2.1
      (p.1 * Real.sqrt (2 * π) * gauss_deconv_sig p.2.2 sbf)

/-- pvfits.py lines 297-299: data[data < sigmacut] = 0, guarded by the
Python truthiness of sigmacut — skipped entirely when sigmacut is None or
exactly 0.0. -/
def sigmacut_clip (sigmacut : Option ℝ) (rows : List (List ℝ)) :
    List (List ℝ) :=
  match sigmacut with
  | none => rows
  | some c =>
      if c ≠ 0 then rows.map fun row => row.map fun v => if v < c then 0 else v
      else rows

/-- pvfits.py lines 291-295: when fit_xlim is a two-element window, the
index list of offsets inside [lo, hi); the offset axis is fancy-indexed by
the list and the data columns are sliced from its first to its last entry.
An empty index list makes indx[0] raise IndexError (none here). -/
def restrict_xlim (xaxis0 : List ℝ) (data0 : List (List ℝ))
    (fit_xlim : Option (ℝ × ℝ)) : Option (List ℝ × List (List ℝ)) :=
  match fit_xlim with
  | none => some (xaxis0, data0)
  | some q =>
      let indx := (List.range xaxis0.length).filter fun i =>
        decide (q.1 ≤ xaxis0.getD i 0) && decide (xaxis0.getD i 0 < q.2)
      match indx with
      | [] => none
      | i0 :: _ =>
          some (indx.map fun i => xaxis0.getD i 0,
            data0.map fun row => (row.drop i0).take (indx.getLastD 0 + 1 - i0))

/-- scipy.fft.fftfreq(n, d): sample frequencies j/(n·d) for j = 0..⌈n/2⌉−1
followed by the negative frequencies (j−n)/(n·d). -/
def fftfreq (n : ℕ) (d : ℝ) : List ℝ :=
  (List.range n).map fun i =>
    (if i < (n + 1) / 2 then (i : ℝ) else (i : ℝ) - n) / (n * d)

/-- scipy.fft.fftshift on one axis: np.roll by n − n//2, moving the
zero-frequency bin to the centre. -/
def fftshift {α : Type} (l : List α) : List α :=
  l.rotateLeft (l.length - l.length / 2)

/-- scipy.fft.fftn on the last axis, one row: the unnormalized discrete
Fourier transform X k = Σ n, x n · exp(−2πi·k·n/N). -/
def dftc (x : List ℂ) : List ℂ :=
  (List.range x.length).map fun (k : ℕ) =>
    ((List.range x.length).map fun (n : ℕ) =>
      x.getD n 0 * Complex.exp (-(2 * (π : ℂ) * Complex.I * (k : ℂ) * (n : ℂ))
        / (x.length : ℂ))).sum

/-- scipy.fft.ifftn on the last axis, one row: the inverse transform
x n = (1/N)·Σ k, X k · exp(2πi·k·n/N). -/
def idftc (x : List ℂ) : List ℂ :=
  (List.range x.length).map fun (k : ℕ) =>
    ((List.range x.length).map fun (n : ℕ) =>
      x.getD n 0 * Complex.exp ((2 * (π : ℂ) * Complex.I * (k : ℂ) * (n : ℂ))
        / (x.length : ℂ))).sum / (x.length : ℂ)

/-- pvfits.py lines 370-372 (single beam): the real-space beam profile,
a unit-amplitude Gaussian of width res_off/(2·sqrt(2 ln 2)) on the offset
axis, normalized to unit sum. -/
def beam_profile (fullx : List ℝ) (r : ℝ) : List ℝ :=
  fullx.map fun x =>
    gauss1d x 1 0 (r / (2 * Real.sqrt (2 * Real.log 2)))
      / (fullx.map fun y =>
          gauss1d y 1 0 (r / (2 * Real.sqrt (2 * Real.log 2)))).sum

/-- pvfits.py lines 384-385: the centred spectrum of one real row,
fftshift(fftn(row)). -/
def row_spectrum (row : List ℝ) : List ℂ :=
  fftshift (dftc (row.map fun (v : ℝ) => (v : ℂ)))

/-- pvfits.py line 429: the Gaussian taper gauss1d(kx, 1, 0, w) evaluated
on the (shifted) frequency axis. -/
def gaussian_taper (kx : List ℝ) (w : ℝ) : List ℝ :=
  kx.map fun k => gauss1d k 1 0 w

/-- pvfits.py line 438, one row: magnitude of fftshift(ifftn(row)). -/
def ifft_magnitude_row (row : List ℂ) : List ℝ :=
  (fftshift (idftc row)).map Complex.abs

/-- scipy.signal.argrelmin with default order (strict local minima, clipped
boundaries): the index of the first entry strictly below both neighbours,
if any. -/
def argrelmin_first (l : List ℝ) : Option ℕ :=
  (List.range l.length).find? fun i =>
    decide (0 < i) && decide (i + 1 < l.length)
      && decide (l.getD i 0 < l.getD (i - 1) 0)
      && decide (l.getD i 0 < l.getD (i + 1) 0)

/-- np.arctan2(y, x) = arg(x + i·y). -/
def np_arctan2 (y x : ℝ) : ℝ := Complex.arg ((x : ℂ) + (y : ℝ) * Complex.I)

/-- Modelled from the spec: complexgauss1d of pvanalysis.fitfuncs, which is
not under the sources.  Spec §4.4: the same Gaussian functional form with
complex value — amplitude, mean, sigma and an explicit phase factor. -/
def complexgauss1d (k a mn sig phase : ℝ) : ℂ :=
  (a : ℂ) * Complex.exp (((-(k - mn) ^ 2 / (2 * sig ^ 2) : ℝ) : ℂ))
    * Complex.exp (Complex.I * (phase : ℝ))

/-- pvfits.py lines 219-241, get_gaussiansolution_fc: the trivial response
when the three central spectral amplitudes vanish or the complex fit comes
back NaN, else the fitted complex Gaussian on the frequency axis.  The
Python window slices nx//2−5 : nx//2+6 are embedded with truncated (Nat)
subtraction; for the small-nx corner Python would wrap negative slice
bounds instead, a corner no claim exercises. -/
def get_gaussiansolution_fc (cfit : CGaussFitOracle) (nx : ℕ) (kx : List ℝ)
    (dfft bfft : List ℂ) : List ℂ :=
  if ∀ v ∈ (dfft.drop (nx / 2 - 1)).take 3, Complex.abs v = 0 then
    kx.map fun k => complexgauss1d k 0 0 1 0
  else
    match cfit kx dfft (bfft.map fun b => 1 / b)
      (Complex.abs (dfft.getD (nx / 2) 0), 0,
        (List.zipWith (fun w k => Complex.abs w * (k - 0) ^ 2)
            ((dfft.drop (nx / 2 - 5)).take 11) ((kx.drop (nx / 2 - 5)).take 11)).sum
          / (((dfft.drop (nx / 2 - 5)).take 11).map Complex.abs).sum,
        np_arctan2 (dfft.getD (np_argmin (kx.map fun k => |k|)) 0).re
          (dfft.getD (np_argmin (kx.map fun k => |k|)) 0).im) with
    | none => kx.map fun k => complexgauss1d k 0 0 1 0
    | some p => kx.map fun k => complexgauss1d k p.1 p.2.1 p.2.2.1 p.2.2.2

/-- pvfits.py lines 390-402, one channel of the nullcut filter: locate the
first local minimum of the amplitude spectrum on the nonnegative-frequency
half (Python index -1, the last bin, when there is none), zero the divided
spectrum beyond that frequency, and additionally apply the highfcut cutoff
when it is stricter and highfcut is not None. -/
def nullcut_row (kx : List ℝ) (nxhalf : ℕ) (sbf : ℝ) (highfcut : Option ℝ)
    (drow dfrow : List ℂ) : List ℂ :=
  let kxh := kx.drop nxhalf
  let fx_null := kxh.getD
    ((argrelmin_first ((dfrow.drop nxhalf).map Complex.abs)).getD
      (kxh.length - 1)) 0
  let drow1 := List.zipWith (fun k v => if |k| > fx_null then 0 else v) kx drow
  match highfcut with
  | none => drow1
  | some hf =>
      if fx_null > sbf * hf then
        List.zipWith (fun k v => if |k| > sbf * hf then 0 else v) kx drow1
      else drow1

/-- The state of an Impvfits object as far as beam_deconvolution reads and
writes it: the (squeezed) data array, the physical axes, the axis spacings,
the scalar 1D resolution (None when no beam is known) and the stored
deconvolution result.  naxis is the original axis count of the FITS file.
The invariants of the data model (§3) are len(xaxis) = nx and
len(vaxis) = len(data) = nv. -/
structure Impvfits where
  naxis : ℕ
  xaxis : List ℝ
  vaxis : List ℝ
  data : List (List ℝ)
  delx : ℝ
  delv : ℝ
  res_off : Option ℝ
  data_deconv : Option (List (List ℝ))

/-- The observable result of one beam_deconvolution call: the distinct
error exits of pvfits.py lines 279-440 (each corresponds to one printed
message and return -1, to one raised Python exception, or to the unknown
mode return 0), or success carrying the array that is stored into
data_deconv. -/
inductive DeconvOutcome where
  | errInvalidDim : DeconvOutcome
  | errEmptyWindow : DeconvOutcome
  | errNoneRes : DeconvOutcome
  | errNoneCompare : DeconvOutcome
  | errEmptyIndex : DeconvOutcome
  | errHighfcutMissing : DeconvOutcome
  | warnUnknownMode : DeconvOutcome
  | success : List (List ℝ) → DeconvOutcome

/-- pvfits.py lines 279-440, Impvfits.beam_deconvolution, single-beam path.
In evaluation order: the naxis ∈ {2,3} check; the fit_xlim column
restriction (IndexError when the window holds no sample); the sigmacut
clip on the copied data; sigma_beam_fft at line 314, which raises TypeError
when res_off is None (None·π); then the mode dispatch.  gauss mode: the
np.array of per-row gate results (indexing its columns raises IndexError on
an empty data array; evaluating peak >= None raises TypeError), the
negative/NaN zeroing, the analytic deconvolution of every row on the full
offset axis and the Jy/beam → Jy/pixel renormalization.  The numerical
modes share the beam spectrum and the divided spectrum and differ in the
filter; nullcut's 2D mask rows are all equal to the |kx| > threshold mask,
and is embedded as such. -/
def beam_deconvolution_outcome (fit : GaussFitOracle) (cfit : CGaussFitOracle)
    (s : Impvfits) (sigmacut highfcut : Option ℝ) (solmode : String)
    (fit_xlim : Option (ℝ × ℝ)) : DeconvOutcome :=
  if ¬(s.naxis = 2 ∨ s.naxis = 3) then .errInvalidDim
  else
    match restrict_xlim s.xaxis s.data fit_xlim with
    | none => .errEmptyWindow
    | some xd =>
        match s.res_off with
        | none => .errNoneRes
        | some r =>
            if solmode = "gauss" then
              if sigmacut_clip sigmacut xd.2 = [] then .errEmptyIndex
              else
                match sigmacut with
                | none => .errNoneCompare
                | some c =>
                    .success (((sigmacut_clip sigmacut xd.2).map fun d_i =>
                      fixRow (gauss_gate_row fit c xd.1 d_i)).map fun p =>
                        (gauss_deconv_row s.xaxis (sigma_beam_fft r) p).map fun v =>
                          v / (Real.sqrt (2 * π) * r / (2 * Real.sqrt (2 * Real.log 2))
                            / s.delx))
            else
              if solmode = "nullcut" then
                .success ((List.zipWith
                  (nullcut_row (fftshift (fftfreq s.xaxis.length s.delx))
                    (s.xaxis.length / 2) (sigma_beam_fft r) highfcut)
                  ((sigmacut_clip sigmacut xd.2).map fun row =>
                    List.zipWith (fun a b => a / b) (row_spectrum row)
                      (row_spectrum (beam_profile s.xaxis r)))
                  ((sigmacut_clip sigmacut xd.2).map row_spectrum)).map
                    ifft_magnitude_row)
              else if solmode = "highfcut" then
                match highfcut with
                | none => .errHighfcutMissing
                | some hf =>
                    .success ((((sigmacut_clip sigmacut xd.2).map fun row =>
                      List.zipWith (fun k v =>
                        if |k| > sigma_beam_fft r * hf then 0 else v)
                        (fftshift (fftfreq s.xaxis.length s.delx))
                        (List.zipWith (fun a b => a / b) (row_spectrum row)
                          (row_spectrum (beam_profile s.xaxis r)))).map
                            ifft_magnitude_row))
              else if solmode = "gauss-fc" then
                .success ((((sigmacut_clip sigmacut xd.2).map fun row =>
                  get_gaussiansolution_fc cfit s.xaxis.length
                    (fftshift (fftfreq s.xaxis.length s.delx))
                    (List.zipWith (fun a b => a / b) (row_spectrum row)
                      (row_spectrum (beam_profile s.xaxis r)))
                    (row_spectrum (beam_profile s.xaxis r))).map
                      ifft_magnitude_row))
              else if solmode = "taper" then
                match highfcut with
                | none => .errHighfcutMissing
                | some hf =>
                    .success ((((sigmacut_clip sigmacut xd.2).map fun row =>
                      List.zipWith (fun (v : ℂ) (t : ℝ) => v * (t : ℂ))
                        (List.zipWith (fun a b => a / b) (row_spectrum row)
                          (row_spectrum (beam_profile s.xaxis r)))
                        (gaussian_taper (fftshift (fftfreq s.xaxis.length s.delx))
                          (sigma_beam_fft r * hf))).map ifft_magnitude_row))
              else .warnUnknownMode

/-- The full method call as a state transformer: on success the result is
stored into data_deconv; every other outcome (error return or exception)
leaves the object as it was. -/
def beam_deconvolution (fit : GaussFitOracle) (cfit : CGaussFitOracle)
    (s : Impvfits) (sigmacut highfcut : Option ℝ) (solmode : String)
    (fit_xlim : Option (ℝ × ℝ)) : Impvfits × DeconvOutcome :=
  match beam_deconvolution_outcome fit cfit s sigmacut highfcut solmode fit_xlim with
  | .success arr => ({ s with data_deconv := some arr }, .success arr)
  | o => (s, o)

/-- The taper-mode output as the amended claim C6 words it: the spectrum of
each (clipped) row is divided by the beam spectrum, the quotient is
multiplied by a Gaussian taper of width sigma_beam_fft·highfcut, and the
output row is the magnitude of the inverse FFT of that product. -/
def taper_amended_rows (s : Impvfits) (sigmacut : Option ℝ) (r hf : ℝ) :
    List (List ℝ) :=
  (sigmacut_clip sigmacut s.data).map fun row =>
    ifft_magnitude_row (List.zipWith (fun (v : ℂ) (t : ℝ) => v * (t : ℂ))
      (List.zipWith (fun a b => a / b) (row_spectrum row)
        (row_spectrum (beam_profile s.xaxis r)))
      (gaussian_taper (fftshift (fftfreq s.xaxis.length s.delx))
        (sigma_beam_fft r * hf)))

/-- The taper-mode output as claim C6 states it: the full, undivided
spectrum of each (clipped) row is multiplied by a Gaussian taper of width
sigma_beam_fft·highfcut, and the output row is the magnitude of the
inverse FFT of that product. -/
def taper_claim_rows (s : Impvfits) (sigmacut : Option ℝ) (r hf : ℝ) :
    List (List ℝ) :=
  (sigmacut_clip sigmacut s.data).map fun row =>
    ifft_magnitude_row (List.zipWith (fun (v : ℂ) (t : ℝ) => v * (t : ℂ))
      (row_spectrum row)
      (gaussian_taper (fftshift (fftfreq s.xaxis.length s.delx))
        (sigma_beam_fft r * hf)))

/-- A trivial stand-in fit oracle, used to instantiate witnesses. -/
def fit0 : GaussFitOracle := fun _ _ _ => (some 0, some 0, some 0)

/-- A trivial stand-in complex fit oracle, used to instantiate witnesses. -/
def cfit0 : CGaussFitOracle := fun _ _ _ _ => none

/-- The beam resolution 2·sqrt(2 ln 2): its real-space beam Gaussian has
unit width and its Fourier width sigma_beam_fft is 1/(2π).  Used by the
concrete instances below. -/
def r0 : ℝ := 2 * Real.sqrt (2 * Real.log 2)

/-- A 4-axis image (invalid dimensionality). -/
def imgBad : Impvfits := ⟨4, [0, 1], [0], [[1, 0]], 1, 1, some 1, none⟩

/-- A valid 2-axis image: one channel [1, 0] on the offset axis [0, 1]. -/
def imgA : Impvfits := ⟨2, [0, 1], [0], [[1, 0]], 1, 1, some r0, none⟩

/-- The value exp(−1/2): the off-centre sample of the unit-width beam
Gaussian of imgA. -/
def E0 : ℝ := Real.exp (-(1 / 2))

/-- The nonzero-frequency bin of imgA's normalized beam spectrum,
(1 − exp(−1/2))/(1 + exp(−1/2)); it lies strictly between 0 and 1. -/
def cR0 : ℝ := (1 - E0) / (1 + E0)

/-- The taper value at imgA's nonzero frequency bin −1/2 for
highfcut = 2. -/
def T0 : ℝ := gauss1d (-(1 / 2)) 1 0 (sigma_beam_fft r0 * 2)

/-- A valid 2-axis image with an all-zero channel. -/
def imgZ : Impvfits := ⟨2, [0, 1], [0], [[0, 0]], 1, 1, some r0, none⟩

/-!  Theorems. -/

/-- C1: in gauss mode, with fitted row width sig and per-channel beam width
sigma_beam_fft res = sqrt(2 ln 2)/(π·res), the deconvolved width equals
sqrt(max((2π·sig)² − (1/sigma_beam_fft)², 0))/(2π), and it is nonnegative
for all inputs (the negative-variance case is clipped to exactly 0). -/
theorem C1_deconv_sig_clip (sig res : ℝ) (hres : res ≠ 0) :
    gauss_deconv_sig sig (sigma_beam_fft res) =
      Real.sqrt (max ((2 * π * sig) ^ 2
        - (1 / (Real.sqrt (2 * Real.log 2) / (π * res))) ^ 2) 0) / (2 * π)
    ∧ 0 ≤ gauss_deconv_sig sig (sigma_beam_fft res) := by
  have hpi : (π : ℝ) ≠ 0 := Real.pi_ne_zero
  have hsbf : sigma_beam_fft res = Real.sqrt (2 * Real.log 2) / (π * res) := by
    unfold sigma_beam_fft
    field_simp
    ring
  constructor
  · unfold gauss_deconv_sig
    rw [hsbf]
    congr 1
    rcases lt_or_le ((2 * π * sig) ^ 2
        - (1 / (Real.sqrt (2 * Real.log 2) / (π * res))) ^ 2) 0 with h | h
    · rw [if_pos h, max_eq_right h.le]
    · rw [if_neg (not_lt.mpr h), max_eq_left h]
  · unfold gauss_deconv_sig
    positivity

/-- Witness for C1 at sig = 1, res = 1. -/
theorem C1_deconv_sig_clip_witness :
    gauss_deconv_sig 1 (sigma_beam_fft 1) =
      Real.sqrt (max ((2 * π * 1) ^ 2
        - (1 / (Real.sqrt (2 * Real.log 2) / (π * 1))) ^ 2) 0) / (2 * π)
    ∧ 0 ≤ gauss_deconv_sig 1 (sigma_beam_fft 1) :=
  C1_deconv_sig_clip 1 1 one_ne_zero

/-- C5: get_1dresolution equals 1/hypot(sin D/bmin, cos D/bmaj) with
D = radians(pa − bpa); it equals bmaj when pa = bpa, bmin when
pa = bpa + 90, and has period 180 degrees in pa. -/
theorem C5_get_1dresolution (pa bmaj bmin bpa : ℝ)
    (hmin : 0 < bmin) (hmaj : bmin ≤ bmaj) :
    get_1dresolution pa bmaj bmin bpa =
      1 / Real.sqrt ((Real.sin ((pa - bpa) * (π / 180)) / bmin) ^ 2
        + (Real.cos ((pa - bpa) * (π / 180)) / bmaj) ^ 2)
    ∧ get_1dresolution bpa bmaj bmin bpa = bmaj
    ∧ get_1dresolution (bpa + 90) bmaj bmin bpa = bmin
    ∧ get_1dresolution (pa + 180) bmaj bmin bpa
        = get_1dresolution pa bmaj bmin bpa := by
  have hbmaj : (0 : ℝ) < bmaj := lt_of_lt_of_le hmin hmaj
  refine ⟨rfl, ?_, ?_, ?_⟩
  · unfold get_1dresolution
    have h0 : (bpa - bpa) * (π / 180) = 0 := by ring
    rw [h0, Real.sin_zero, Real.cos_zero]
    rw [show (0 / bmin : ℝ) ^ 2 + (1 / bmaj) ^ 2 = (1 / bmaj) ^ 2 by ring]
    rw [Real.sqrt_sq_eq_abs, abs_of_pos (by positivity)]
    field_simp
  · unfold get_1dresolution
    have h90 : (bpa + 90 - bpa) * (π / 180) = π / 2 := by ring
    rw [h90, Real.sin_pi_div_two, Real.cos_pi_div_two]
    rw [show (1 / bmin : ℝ) ^ 2 + (0 / bmaj) ^ 2 = (1 / bmin) ^ 2 by ring]
    rw [Real.sqrt_sq_eq_abs, abs_of_pos (by positivity)]
    field_simp
  · unfold get_1dresolution
    have h180 : (pa + 180 - bpa) * (π / 180) = (pa - bpa) * (π / 180) + π := by
      ring
    rw [h180, Real.sin_add_pi, Real.cos_add_pi]
    rw [show (-Real.sin ((pa - bpa) * (π / 180)) / bmin) ^ 2
          + (-Real.cos ((pa - bpa) * (π / 180)) / bmaj) ^ 2
        = (Real.sin ((pa - bpa) * (π / 180)) / bmin) ^ 2
          + (Real.cos ((pa - bpa) * (π / 180)) / bmaj) ^ 2 by ring]

/-- Witness for C5 at pa = 0, bmaj = 2, bmin = 1, bpa = 0. -/
theorem C5_get_1dresolution_witness :
    get_1dresolution 0 2 1 0 =
      1 / Real.sqrt ((Real.sin ((0 - 0) * (π / 180)) / 1) ^ 2
        + (Real.cos ((0 - 0) * (π / 180)) / 2) ^ 2)
    ∧ get_1dresolution 0 2 1 0 = 2
    ∧ get_1dresolution (0 + 90) 2 1 0 = 1
    ∧ get_1dresolution (0 + 180) 2 1 0 = get_1dresolution 0 2 1 0 :=
  C5_get_1dresolution 0 2 1 0 one_pos one_le_two

/-- C9: beam_deconvolution never mutates the image it reads: with every
mode, threshold and fit window, the stored data array and the offset and
velocity axes are unchanged after the call; only data_deconv can be
assigned, and it receives a newly computed array. -/
theorem C9_no_mutation (fit : GaussFitOracle) (cfit : CGaussFitOracle)
    (s : Impvfits) (sigmacut highfcut : Option ℝ) (solmode : String)
    (fit_xlim : Option (ℝ × ℝ)) :
    (beam_deconvolution fit cfit s sigmacut highfcut solmode fit_xlim).1.data
        = s.data
    ∧ (beam_deconvolution fit cfit s sigmacut highfcut solmode fit_xlim).1.xaxis
        = s.xaxis
    ∧ (beam_deconvolution fit cfit s sigmacut highfcut solmode fit_xlim).1.vaxis
        = s.vaxis := by
  unfold beam_deconvolution
  cases beam_deconvolution_outcome fit cfit s sigmacut highfcut solmode fit_xlim <;>
    simp

/-- C8: when the image has neither 2 nor 3 axes, the call fails with the
invalid-dimensionality error and stores nothing, for every mode and every
parameter combination. -/
theorem C8_invalid_dim (fit : GaussFitOracle) (cfit : CGaussFitOracle)
    (s : Impvfits) (sigmacut highfcut : Option ℝ) (solmode : String)
    (fit_xlim : Option (ℝ × ℝ)) (h2 : s.naxis ≠ 2) (h3 : s.naxis ≠ 3) :
    beam_deconvolution fit cfit s sigmacut highfcut solmode fit_xlim
      = (s, DeconvOutcome.errInvalidDim) := by
  have h : beam_deconvolution_outcome fit cfit s sigmacut highfcut solmode fit_xlim
      = .errInvalidDim := by
    unfold beam_deconvolution_outcome
    rw [if_pos (by push_neg; exact ⟨h2, h3⟩)]
  unfold beam_deconvolution
  rw [h]

/-- Witness for C8 on the 4-axis image. -/
theorem C8_invalid_dim_witness :
    beam_deconvolution fit0 cfit0 imgBad none none "gauss" none
      = (imgBad, DeconvOutcome.errInvalidDim) :=
  C8_invalid_dim fit0 cfit0 imgBad none none "gauss" none
    (by simp [imgBad]) (by simp [imgBad])

/-- C7: calling with mode highfcut or taper and no highfcut value fails
with the missing-parameter error and stores nothing. -/
theorem C7_missing_highfcut (fit : GaussFitOracle) (cfit : CGaussFitOracle)
    (s : Impvfits) (sigmacut : Option ℝ) (r : ℝ) (solmode : String)
    (hax : s.naxis = 2 ∨ s.naxis = 3) (hres : s.res_off = some r)
    (hmode : solmode = "highfcut" ∨ solmode = "taper") :
    beam_deconvolution fit cfit s sigmacut none solmode none
      = (s, DeconvOutcome.errHighfcutMissing) := by
  have h : beam_deconvolution_outcome fit cfit s sigmacut none solmode none
      = .errHighfcutMissing := by
    unfold beam_deconvolution_outcome
    rcases hmode with h | h <;> subst h <;>
      simp [restrict_xlim, hres, hax]
  unfold beam_deconvolution
  rw [h]

/-- Witness for C7 on a valid image, mode highfcut. -/
theorem C7_missing_highfcut_witness :
    beam_deconvolution fit0 cfit0 imgA none none "highfcut" none
      = (imgA, DeconvOutcome.errHighfcutMissing) :=
  C7_missing_highfcut fit0 cfit0 imgA none r0 "highfcut"
    (Or.inl rfl) rfl (Or.inl rfl)

lemma sigmacut_clip_ne_nil (sigmacut : Option ℝ) (rows : List (List ℝ))
    (h : rows ≠ []) : sigmacut_clip sigmacut rows ≠ [] := by
  cases sigmacut with
  | none => simpa [sigmacut_clip]
  | some c =>
      unfold sigmacut_clip
      by_cases hc : c ≠ 0 <;> simp [hc, h]

/-- The gauss branch of a valid call succeeds, and its stored array is the
per-row composite of gate, negative/NaN zeroing, analytic deconvolution
and Jy/beam → Jy/pixel renormalization. -/
lemma gauss_outcome_eq (fit : GaussFitOracle) (cfit : CGaussFitOracle)
    (s : Impvfits) (r c : ℝ) (highfcut : Option ℝ)
    (hax : s.naxis = 2 ∨ s.naxis = 3) (hres : s.res_off = some r)
    (hd : s.data ≠ []) :
    beam_deconvolution_outcome fit cfit s (some c) highfcut "gauss" none
      = DeconvOutcome.success ((sigmacut_clip (some c) s.data).map fun d_i =>
          (gauss_deconv_row s.xaxis (sigma_beam_fft r)
            (fixRow (gauss_gate_row fit c s.xaxis d_i))).map fun v =>
              v / (Real.sqrt (2 * π) * r / (2 * Real.sqrt (2 * Real.log 2))
                / s.delx)) := by
  unfold beam_deconvolution_outcome
  simp [restrict_xlim, hres, hax, sigmacut_clip_ne_nil (some c) s.data hd,
    List.map_map, Function.comp]

/-- The same at the level of the state-transformer call. -/
lemma gauss_run_snd (fit : GaussFitOracle) (cfit : CGaussFitOracle)
    (s : Impvfits) (r c : ℝ) (highfcut : Option ℝ)
    (hax : s.naxis = 2 ∨ s.naxis = 3) (hres : s.res_off = some r)
    (hd : s.data ≠ []) :
    (beam_deconvolution fit cfit s (some c) highfcut "gauss" none).2
      = DeconvOutcome.success ((sigmacut_clip (some c) s.data).map fun d_i =>
          (gauss_deconv_row s.xaxis (sigma_beam_fft r)
            (fixRow (gauss_gate_row fit c s.xaxis d_i))).map fun v =>
              v / (Real.sqrt (2 * π) * r / (2 * Real.sqrt (2 * Real.log 2))
                / s.delx)) := by
  unfold beam_deconvolution
  rw [gauss_outcome_eq fit cfit s r c highfcut hax hres hd]

/-- C10: with the gauss mode, a valid image and any real sigmacut the call
always succeeds, whatever the fit oracle returns; with the default
sigmacut=None the per-row peak >= None comparison raises and nothing is
stored; and the clipping step itself is skipped for the falsy thresholds
None and 0.0 while the gate still compares against the value as given. -/
theorem C10_sigmacut_gate (fit : GaussFitOracle) (cfit : CGaussFitOracle)
    (s : Impvfits) (r : ℝ) (highfcut : Option ℝ)
    (hax : s.naxis = 2 ∨ s.naxis = 3) (hres : s.res_off = some r)
    (hd : s.data ≠ []) :
    (∀ c : ℝ, ∃ arr,
        (beam_deconvolution fit cfit s (some c) highfcut "gauss" none).2
          = DeconvOutcome.success arr)
    ∧ (beam_deconvolution fit cfit s none highfcut "gauss" none).2
        = DeconvOutcome.errNoneCompare
    ∧ (beam_deconvolution fit cfit s none highfcut "gauss" none).1 = s
    ∧ (∀ rows : List (List ℝ),
        sigmacut_clip (some 0) rows = rows ∧ sigmacut_clip none rows = rows) := by
  have hnone : beam_deconvolution_outcome fit cfit s none highfcut "gauss" none
      = .errNoneCompare := by
    unfold beam_deconvolution_outcome
    simp [restrict_xlim, hres, hax, sigmacut_clip_ne_nil none s.data hd]
  refine ⟨fun c => ⟨_, gauss_run_snd fit cfit s r c highfcut hax hres hd⟩,
    ?_, ?_, fun rows => ⟨by simp [sigmacut_clip], rfl⟩⟩
  · unfold beam_deconvolution
    rw [hnone]
  · unfold beam_deconvolution
    rw [hnone]

/-- Witness for C10 on a valid image. -/
theorem C10_sigmacut_gate_witness :
    (∀ c : ℝ, ∃ arr,
        (beam_deconvolution fit0 cfit0 imgA (some c) none "gauss" none).2
          = DeconvOutcome.success arr)
    ∧ (beam_deconvolution fit0 cfit0 imgA none none "gauss" none).2
        = DeconvOutcome.errNoneCompare
    ∧ (beam_deconvolution fit0 cfit0 imgA none none "gauss" none).1 = imgA
    ∧ (∀ rows : List (List ℝ),
        sigmacut_clip (some 0) rows = rows ∧ sigmacut_clip none rows = rows) :=
  C10_sigmacut_gate fit0 cfit0 imgA r0 none (Or.inl rfl) rfl (by simp [imgA])

lemma get_gaussiansolution_params_zero (fit : GaussFitOracle) (xin : List ℝ)
    (din : List (Option ℝ)) (h : ∀ v ∈ din, v = some 0) :
    get_gaussiansolution_params fit xin din = (some 0, some 0, some 0) := by
  unfold get_gaussiansolution_params
  rw [if_pos]
  intro v hv
  simp only [List.mem_map, List.mem_filterMap] at hv
  obtain ⟨p, ⟨q, hq, hf⟩, hv⟩ := hv
  have hq2 : q.2 ∈ din := (List.of_mem_zip (a := q.1) (b := q.2) (by simpa using hq)).2
  rw [h q.2 hq2] at hf
  simp only [Option.map_some'] at hf
  rw [← hv, ← Option.some.inj hf]

lemma fixRow_zeros : fixRow (some 0, some 0, some 0) = (0, 0, 0) := by
  simp [fixRow, nan_lt_zero]

lemma np_nanmax_of_all_zero (l : List ℝ) (h : ∀ v ∈ l, v = 0) :
    np_nanmax l = 0 := by
  have aux : ∀ l2 : List ℝ, (∀ v ∈ l2, v = 0) → List.foldl max 0 l2 = 0 := by
    intro l2
    induction l2 with
    | nil => intro _; rfl
    | cons x xs ih =>
        intro h2
        rw [List.foldl_cons, h2 x (List.mem_cons_self x xs), max_self]
        exact ih fun v hv => h2 v (List.mem_cons_of_mem x hv)
  cases l with
  | nil => rfl
  | cons x xs =>
      unfold np_nanmax
      rw [List.headD_cons, h x (List.mem_cons_self x xs)]
      exact aux (0 :: xs) fun v hv => by
        rcases List.mem_cons.mp hv with h0 | hmem
        · exact h0
        · exact h v (List.mem_cons_of_mem x hmem)

lemma gauss_deconv_sig_zero_sig (sbf : ℝ) : gauss_deconv_sig 0 sbf = 0 := by
  unfold gauss_deconv_sig
  rcases eq_or_ne sbf 0 with h | h
  · subst h; norm_num
  · have h1 : (0 : ℝ) < (1 / sbf) ^ 2 :=
      (sq_nonneg _).lt_of_ne' (pow_ne_zero 2 (one_div_ne_zero h))
    rw [if_pos (by nlinarith)]
    simp

lemma get_pointsolution_zero_mem (x : List ℝ) (x0 : ℝ) :
    ∀ v ∈ get_pointsolution x x0 0, v = 0 := by
  intro v hv
  unfold get_pointsolution at hv
  simp only [List.mem_map, ite_self] at hv
  obtain ⟨i, _, hi⟩ := hv
  exact hi.symm

lemma gauss_deconv_row_zero_params (fullx : List ℝ) (sbf : ℝ) :
    ∀ v ∈ gauss_deconv_row fullx sbf (0, 0, 0), v = 0 := by
  unfold gauss_deconv_row
  simp only [gauss_deconv_sig_zero_sig, ne_eq, not_true_eq_false, if_false,
    zero_mul, mul_zero]
  exact get_pointsolution_zero_mem fullx 0

lemma gauss_pipeline_row_zero (fit : GaussFitOracle) (c : ℝ)
    (xv fullx : List ℝ) (sbf D : ℝ) (row : List ℝ) (h : ∀ v ∈ row, v = 0) :
    ∀ v ∈ (gauss_deconv_row fullx sbf
      (fixRow (gauss_gate_row fit c xv row))).map (fun v => v / D), v = 0 := by
  have hgate : fixRow (gauss_gate_row fit c xv row) = (0, 0, 0) := by
    unfold gauss_gate_row
    split
    · rw [get_gaussiansolution_params_zero fit xv (row.map some) ?_]
      · exact fixRow_zeros
      · intro v hv
        simp only [List.mem_map] at hv
        obtain ⟨u, hu, rfl⟩ := hv
        rw [h u hu]
    · exact fixRow_zeros
  rw [hgate]
  intro v hv
  simp only [List.mem_map] at hv
  obtain ⟨u, hu, rfl⟩ := hv
  rw [gauss_deconv_row_zero_params fullx sbf u hu, zero_div]

lemma sigmacut_clip_row_zero (c : ℝ) (rows : List (List ℝ)) (i : ℕ)
    (hz : ∀ v ∈ rows.getD i [], v = (0 : ℝ)) :
    ∀ v ∈ (sigmacut_clip (some c) rows).getD i [], v = 0 := by
  simp only [sigmacut_clip]
  by_cases hc : c ≠ 0
  · rw [if_pos hc]
    by_cases hi : i < rows.length
    · rw [List.getD_eq_getElem _ _ (by simpa using hi), List.getElem_map]
      intro v hv
      simp only [List.mem_map] at hv
      obtain ⟨u, hu, rfl⟩ := hv
      rw [hz u (by rwa [List.getD_eq_getElem _ _ hi]), ite_self]
    · rw [List.getD_eq_default _ _ (by simpa using not_lt.mp hi)]
      intro v hv
      exact absurd hv (List.not_mem_nil v)
  · rw [if_neg hc]
    exact hz

/-- C4: an all-zero input row makes the real-space fit return {0,0,0}
without consulting the fitting oracle at all, and the corresponding row of
the gauss-mode deconvolution result is entirely zero. -/
theorem C4_allzero_row (fit : GaussFitOracle) (cfit : CGaussFitOracle)
    (s : Impvfits) (r c : ℝ) (i : ℕ) (highfcut : Option ℝ)
    (hax : s.naxis = 2 ∨ s.naxis = 3) (hres : s.res_off = some r)
    (hr : 0 < r) (hdx : s.delx ≠ 0) (hd : s.data ≠ [])
    (hz : ∀ v ∈ s.data.getD i [], v = (0 : ℝ)) :
    (∀ (fit2 : GaussFitOracle) (xin : List ℝ) (din : List (Option ℝ)),
        (∀ v ∈ din, v = some 0) →
        get_gaussiansolution_params fit2 xin din = (some 0, some 0, some 0))
    ∧ ∃ arr, (beam_deconvolution fit cfit s (some c) highfcut "gauss" none).2
          = DeconvOutcome.success arr
        ∧ ∀ v ∈ arr.getD i [], v = 0 := by
  refine ⟨fun fit2 xin din h => get_gaussiansolution_params_zero fit2 xin din h,
    ⟨_, gauss_run_snd fit cfit s r c highfcut hax hres hd, ?_⟩⟩
  · have hclip := sigmacut_clip_row_zero c s.data i hz
    by_cases hi : i < (sigmacut_clip (some c) s.data).length
    · rw [List.getD_eq_getElem _ _ (by simpa using hi), List.getElem_map]
      have h0 : ∀ v ∈ (sigmacut_clip (some c) s.data)[i], v = (0 : ℝ) := by
        rw [← List.getD_eq_getElem (sigmacut_clip (some c) s.data) [] hi]
        exact hclip
      exact gauss_pipeline_row_zero fit c s.xaxis s.xaxis (sigma_beam_fft r) _ _ h0
    · rw [List.getD_eq_default _ _ (by simpa using not_lt.mp hi)]
      intro v hv
      exact absurd hv (List.not_mem_nil v)

/-- Witness for C4 on the image with the all-zero channel, i = 0, c = 1. -/
theorem C4_allzero_row_witness :
    (∀ (fit2 : GaussFitOracle) (xin : List ℝ) (din : List (Option ℝ)),
        (∀ v ∈ din, v = some 0) →
        get_gaussiansolution_params fit2 xin din = (some 0, some 0, some 0))
    ∧ ∃ arr, (beam_deconvolution fit0 cfit0 imgZ (some 1) none "gauss" none).2
          = DeconvOutcome.success arr
        ∧ ∀ v ∈ arr.getD 0 [], v = 0 :=
  C4_allzero_row fit0 cfit0 imgZ r0 1 0 none (Or.inl rfl) rfl
    (by
      unfold r0
      have : (0 : ℝ) < Real.sqrt (2 * Real.log 2) :=
        Real.sqrt_pos.mpr (by positivity)
      linarith)
    (by simp [imgZ]) (by simp [imgZ]) (by simp [imgZ])

/-- C3, counterexample: a fitted row with negative amplitude and finite
mean and sigma, here (a, mn, sig) = (-1, 2, 3), does not get the full
zero triple: the zeroing loop of lines 329-331 produces (0, 2, 3), because
the amplitude column is zeroed first and the mean and sigma masks then see
no negative amplitude any more. -/
theorem C3_counterexample :
    fixRow (some (-1), some 2, some 3) = ((0 : ℝ), (2 : ℝ), (3 : ℝ))
    ∧ ((0 : ℝ), (2 : ℝ), (3 : ℝ)) ≠ (((0 : ℝ), (0 : ℝ), (0 : ℝ))) := by
  constructor
  · norm_num [fixRow, nan_lt_zero]
    simp
  · intro h
    rw [Prod.ext_iff, Prod.ext_iff] at h
    norm_num at h

/-- C3, amended: rows below the threshold get the full zero triple
{a = 0, mn = 0, sig = 0}; for fitted rows the amplitude is zeroed when it
is negative or NaN, while the mean and the sigma are each zeroed exactly
when that parameter itself is NaN (a negative amplitude leaves them
untouched); and no per-row degeneracy aborts the call: with a valid image
the gauss mode succeeds whatever the fit oracle returns. -/
theorem C3_amended :
    (∀ (fit : GaussFitOracle) (c : ℝ) (xv row : List ℝ), np_nanmax row < c →
        fixRow (gauss_gate_row fit c xv row) = (0, 0, 0))
    ∧ (∀ a mn sig : Option ℝ,
        fixRow (a, mn, sig) =
          ((if nan_lt_zero a ∨ a = none then 0 else a.getD 0),
           (if mn = none then 0 else mn.getD 0),
           (if sig = none then 0 else sig.getD 0)))
    ∧ (∀ (fit : GaussFitOracle) (cfit : CGaussFitOracle) (s : Impvfits)
        (r c : ℝ) (highfcut : Option ℝ),
        (s.naxis = 2 ∨ s.naxis = 3) → s.res_off = some r → s.data ≠ [] →
        ∃ arr, (beam_deconvolution fit cfit s (some c) highfcut "gauss" none).2
          = DeconvOutcome.success arr) := by
  refine ⟨?_, ?_, ?_⟩
  · intro fit c xv row hlt
    rw [gauss_gate_row, if_neg (not_le.mpr hlt)]
    exact fixRow_zeros
  · intro a mn sig
    by_cases h : nan_lt_zero a ∨ a = none
    · have h00 : nan_lt_zero (some 0) = false := by simp [nan_lt_zero]
      by_cases hmn : mn = none <;> by_cases hsig : sig = none <;>
        simp [fixRow, h, h00, hmn, hsig]
    · have ha : nan_lt_zero a = false :=
        Bool.eq_false_iff.mpr fun hb => h (Or.inl hb)
      have ha2 : ¬a = none := fun hn => h (Or.inr hn)
      by_cases hmn : mn = none <;> by_cases hsig : sig = none <;>
        simp [fixRow, ha, ha2, hmn, hsig]
  · intro fit cfit s r c highfcut hax hres hd
    exact ⟨_, gauss_run_snd fit cfit s r c highfcut hax hres hd⟩

/-- Witness for C3_amended at concrete inputs. -/
theorem C3_amended_witness :
    fixRow (gauss_gate_row fit0 2 [0] [1]) = (0, 0, 0)
    ∧ fixRow (some (-1), some 2, some 3) =
        ((if nan_lt_zero (some (-1)) ∨ (some (-1) : Option ℝ) = none then 0
            else (some (-1) : Option ℝ).getD 0),
         (if (some 2 : Option ℝ) = none then 0 else (some 2 : Option ℝ).getD 0),
         (if (some 3 : Option ℝ) = none then 0 else (some 3 : Option ℝ).getD 0))
    ∧ ∃ arr, (beam_deconvolution fit0 cfit0 imgA (some 0) (some 2) "gauss" none).2
        = DeconvOutcome.success arr := by
  refine ⟨C3_amended.1 fit0 2 [0] [1] ?_,
    C3_amended.2.1 (some (-1)) (some 2) (some 3),
    C3_amended.2.2 fit0 cfit0 imgA r0 0 (some 2) (Or.inl rfl) rfl
      (by simp [imgA])⟩
  show np_nanmax [1] < 2
  norm_num [np_nanmax]

/-- C2: the fully-unresolved branch of the gauss-mode reconstruction.  At
the failing input (a, mn, sig) = (1, 0, 1) with res_off = 2·sqrt(2 ln 2)
the deconvolved sigma is exactly 0, so per the claim and spec §4.3 the row
should be a spike of value a·sqrt(2π)·sig = sqrt(2π) at the sample nearest
mn = 0; the code instead multiplies by the deconvolved sigma (zero on this
branch) and produces the all-zero row. -/
theorem C2_spike_value_bug :
    gauss_deconv_row [-1, 0, 1] (sigma_beam_fft r0) (1, 0, 1) = [0, 0, 0]
    ∧ get_pointsolution [-1, 0, 1] 0 (1 * Real.sqrt (2 * π) * 1)
      = [0, Real.sqrt (2 * π), 0]
    ∧ ([0, 0, 0] : List ℝ) ≠ [0, Real.sqrt (2 * π), 0] := by
  have hsqrt : Real.sqrt (2 * Real.log 2) ≠ 0 := by
    have : (0 : ℝ) < Real.sqrt (2 * Real.log 2) :=
      Real.sqrt_pos.mpr (by positivity)
    linarith
  have hsbf : sigma_beam_fft r0 = 1 / (2 * π) := by
    unfold sigma_beam_fft r0
    field_simp
    ring
  have hsig : gauss_deconv_sig 1 (sigma_beam_fft r0) = 0 := by
    rw [hsbf]
    unfold gauss_deconv_sig
    rw [if_neg (by norm_num [Real.pi_ne_zero])]
    have h2 : (2 * π * 1) ^ 2 - (1 / (1 / (2 * π))) ^ 2 = 0 := by
      field_simp
    rw [h2, Real.sqrt_zero, zero_div]
  refine ⟨?_, ?_, ?_⟩
  · unfold gauss_deconv_row
    rw [if_neg (by simpa using hsig)]
    show get_pointsolution [-1, 0, 1] 0
      (1 * Real.sqrt (2 * π) * gauss_deconv_sig 1 (sigma_beam_fft r0)) = _
    rw [hsig, mul_zero]
    unfold get_pointsolution
    simp
  · have hmap : ([-1, 0, 1] : List ℝ).map (fun xi => |xi - 0|) = [1, 0, 1] := by
      norm_num
    have hargmin : np_argmin [1, 0, 1] = 1 := by
      rw [np_argmin, if_neg (by norm_num)]
      rw [np_argmin, if_pos (by norm_num)]
    unfold get_pointsolution
    rw [hmap, hargmin]
    show List.map _ [0, 1, 2] = _
    norm_num
  · intro h
    simp only [List.cons.injEq] at h
    have : (0 : ℝ) < Real.sqrt (2 * π) := Real.sqrt_pos.mpr (by positivity)
    linarith [h.2.1]

/-- The taper branch of a valid call succeeds with exactly the rows of
taper_amended_rows. -/
lemma taper_outcome_eq (fit : GaussFitOracle) (cfit : CGaussFitOracle)
    (s : Impvfits) (sigmacut : Option ℝ) (r hf : ℝ)
    (hax : s.naxis = 2 ∨ s.naxis = 3) (hres : s.res_off = some r) :
    beam_deconvolution_outcome fit cfit s sigmacut (some hf) "taper" none
      = DeconvOutcome.success (taper_amended_rows s sigmacut r hf) := by
  unfold beam_deconvolution_outcome taper_amended_rows
  simp [restrict_xlim, hres, hax, List.map_map, Function.comp]

/-- C6, amended: in taper mode the beam-divided spectrum (data spectrum
over beam spectrum) of every channel is multiplied by a Gaussian taper of
width sigma_beam_fft·highfcut, and each output row is the magnitude of the
per-channel inverse FFT of that product; the claim's words differ only in
tapering the full undivided spectrum, which the counterexample refutes. -/
theorem C6_taper_amended (fit : GaussFitOracle) (cfit : CGaussFitOracle)
    (s : Impvfits) (sigmacut : Option ℝ) (r hf : ℝ)
    (hax : s.naxis = 2 ∨ s.naxis = 3) (hres : s.res_off = some r) :
    beam_deconvolution fit cfit s sigmacut (some hf) "taper" none
      = ({ s with data_deconv := some (taper_amended_rows s sigmacut r hf) },
          DeconvOutcome.success (taper_amended_rows s sigmacut r hf)) := by
  unfold beam_deconvolution
  rw [taper_outcome_eq fit cfit s sigmacut r hf hax hres]

/-- Witness for C6_taper_amended on the concrete image imgA. -/
theorem C6_taper_amended_witness :
    beam_deconvolution fit0 cfit0 imgA (some 0) (some 2) "taper" none
      = ({ imgA with
            data_deconv := some (taper_amended_rows imgA (some 0) r0 2) },
          DeconvOutcome.success (taper_amended_rows imgA (some 0) r0 2)) :=
  C6_taper_amended fit0 cfit0 imgA (some 0) r0 2 (Or.inl rfl) rfl

lemma fftshift_pair {α : Type} (a b : α) : fftshift [a, b] = [b, a] := by
  simp [fftshift, List.rotateLeft]

lemma fftfreq_two : fftfreq 2 1 = [0, -(1 / 2)] := by
  norm_num [fftfreq, List.range_succ]

lemma dftc_pair (a b : ℂ) : dftc [a, b] = [a + b, a - b] := by
  have hpin : Complex.exp (-((π : ℂ) * Complex.I)) = -1 := by
    rw [Complex.exp_neg, Complex.exp_pi_mul_I]
    norm_num
  unfold dftc
  rw [show List.range ([a, b] : List ℂ).length = [0, 1] from rfl]
  simp only [List.map_cons, List.map_nil, List.sum_cons, List.sum_nil,
    List.getD_cons_zero, List.getD_cons_succ, Nat.cast_zero, Nat.cast_one]
  rw [show (([a, b] : List ℂ).length : ℂ) = 2 by norm_num]
  rw [show -(2 * (π : ℂ) * Complex.I * 0 * 0) / 2 = 0 by ring,
    show -(2 * (π : ℂ) * Complex.I * 0 * 1) / 2 = 0 by ring,
    show -(2 * (π : ℂ) * Complex.I * 1 * 0) / 2 = 0 by ring,
    show -(2 * (π : ℂ) * Complex.I * 1 * 1) / 2 = -((π : ℂ) * Complex.I) by ring,
    Complex.exp_zero, hpin]
  norm_num
  ring

lemma idftc_pair (a b : ℂ) : idftc [a, b] = [(a + b) / 2, (a - b) / 2] := by
  unfold idftc
  rw [show List.range ([a, b] : List ℂ).length = [0, 1] from rfl]
  simp only [List.map_cons, List.map_nil, List.sum_cons, List.sum_nil,
    List.getD_cons_zero, List.getD_cons_succ, Nat.cast_zero, Nat.cast_one]
  rw [show (([a, b] : List ℂ).length : ℂ) = 2 by norm_num]
  rw [show 2 * (π : ℂ) * Complex.I * 0 * 0 / 2 = 0 by ring,
    show 2 * (π : ℂ) * Complex.I * 0 * 1 / 2 = 0 by ring,
    show 2 * (π : ℂ) * Complex.I * 1 * 0 / 2 = 0 by ring,
    show 2 * (π : ℂ) * Complex.I * 1 * 1 / 2 = (π : ℂ) * Complex.I by ring,
    Complex.exp_zero, Complex.exp_pi_mul_I]
  norm_num
  ring

lemma row_spectrum_pair (u v : ℝ) :
    row_spectrum [u, v] = [(u : ℂ) - v, (u : ℂ) + v] := by
  unfold row_spectrum
  rw [show ([u, v] : List ℝ).map (fun (w : ℝ) => (w : ℂ)) = [(u : ℂ), (v : ℂ)]
      by simp,
    dftc_pair, fftshift_pair]

lemma r0_div_eq_one : r0 / (2 * Real.sqrt (2 * Real.log 2)) = 1 := by
  unfold r0
  refine div_self (ne_of_gt ?_)
  have : (0 : ℝ) < Real.sqrt (2 * Real.log 2) := Real.sqrt_pos.mpr (by positivity)
  linarith

lemma gauss1d_center (sig : ℝ) : gauss1d 0 1 0 sig = 1 := by
  simp [gauss1d]

lemma gauss1d_one_one : gauss1d 1 1 0 1 = E0 := by
  unfold E0
  norm_num [gauss1d]

lemma beam_profile_imgA :
    beam_profile [0, 1] r0 = [1 / (1 + E0), E0 / (1 + E0)] := by
  unfold beam_profile
  simp only [r0_div_eq_one, List.map_cons, List.map_nil, List.sum_cons,
    List.sum_nil, gauss1d_center, gauss1d_one_one, add_zero]

lemma E0_pos : (0 : ℝ) < E0 := Real.exp_pos _

lemma E0_lt_one : E0 < 1 := by
  unfold E0
  calc Real.exp (-(1 / 2)) < Real.exp 0 := Real.exp_lt_exp.mpr (by norm_num)
  _ = 1 := Real.exp_zero

lemma one_add_E0_pos : (0 : ℝ) < 1 + E0 := by linarith [E0_pos]

lemma beam_spectrum_imgA :
    row_spectrum (beam_profile [0, 1] r0) = [((cR0 : ℝ) : ℂ), 1] := by
  rw [beam_profile_imgA, row_spectrum_pair]
  have hE : ((1 : ℝ) + E0) ≠ 0 := ne_of_gt one_add_E0_pos
  simp only [List.cons.injEq, and_true]
  constructor
  · rw [← Complex.ofReal_sub, div_sub_div_same]
    rfl
  · rw [← Complex.ofReal_add, div_add_div_same, div_self hE, Complex.ofReal_one]

lemma data_spectrum_imgA : row_spectrum [1, 0] = [1, 1] := by
  rw [row_spectrum_pair]
  norm_num

lemma taper_eval_imgA :
    gaussian_taper [-(1 / 2 : ℝ), 0] (sigma_beam_fft r0 * 2) = [T0, 1] := by
  unfold gaussian_taper T0
  simp only [List.map_cons, List.map_nil, gauss1d_center]

lemma cR0_pos : (0 : ℝ) < cR0 := by
  unfold cR0
  exact div_pos (by linarith [E0_lt_one]) one_add_E0_pos

lemma cR0_lt_one : cR0 < 1 := by
  unfold cR0
  rw [div_lt_one one_add_E0_pos]
  linarith [E0_pos]

lemma T0_pos : (0 : ℝ) < T0 := by
  unfold T0 gauss1d
  positivity

lemma ifft_mag_pair_real (x : ℝ) :
    ifft_magnitude_row [((x : ℝ) : ℂ), 1] = [|(x - 1) / 2|, |(x + 1) / 2|] := by
  unfold ifft_magnitude_row
  rw [idftc_pair, fftshift_pair]
  simp only [List.map_cons, List.map_nil]
  rw [show ((x : ℂ) - 1) / 2 = (((x - 1) / 2 : ℝ) : ℂ) by push_cast; ring,
    show ((x : ℂ) + 1) / 2 = (((x + 1) / 2 : ℝ) : ℂ) by push_cast; ring,
    Complex.abs_ofReal, Complex.abs_ofReal]

lemma amended_prod_imgA :
    List.zipWith (fun (v : ℂ) (t : ℝ) => v * (t : ℂ))
      (List.zipWith (fun a b => a / b) (row_spectrum [(1 : ℝ), 0])
        (row_spectrum (beam_profile [(0 : ℝ), 1] r0)))
      (gaussian_taper [-(1 / 2 : ℝ), 0] (sigma_beam_fft r0 * 2))
      = [((T0 / cR0 : ℝ) : ℂ), 1] := by
  rw [data_spectrum_imgA, beam_spectrum_imgA, taper_eval_imgA]
  simp only [List.zipWith_cons_cons, List.zipWith_nil_right]
  rw [show (1 : ℂ) / ((cR0 : ℝ) : ℂ) * ((T0 : ℝ) : ℂ)
      = (((T0 / cR0 : ℝ)) : ℂ) by push_cast; ring]
  norm_num

lemma claim_prod_imgA :
    List.zipWith (fun (v : ℂ) (t : ℝ) => v * (t : ℂ)) (row_spectrum [(1 : ℝ), 0])
      (gaussian_taper [-(1 / 2 : ℝ), 0] (sigma_beam_fft r0 * 2))
      = [((T0 : ℝ) : ℂ), 1] := by
  rw [data_spectrum_imgA, taper_eval_imgA]
  simp only [List.zipWith_cons_cons, List.zipWith_nil_right]
  norm_num

/-- C6, counterexample: on imgA the taper-mode output differs from the
claim's output built from the full, undivided spectrum — the code tapers
the beam-divided spectrum instead. -/
theorem C6_counterexample :
    (beam_deconvolution fit0 cfit0 imgA (some 0) (some 2) "taper" none).2
      ≠ DeconvOutcome.success (taper_claim_rows imgA (some 0) r0 2) := by
  have hrun : (beam_deconvolution fit0 cfit0 imgA (some 0) (some 2) "taper" none).2
      = DeconvOutcome.success (taper_amended_rows imgA (some 0) r0 2) := by
    unfold beam_deconvolution
    rw [taper_outcome_eq fit0 cfit0 imgA (some 0) r0 2 (Or.inl rfl) rfl]
  rw [hrun]
  intro hEq
  have harr : taper_amended_rows imgA (some 0) r0 2
      = taper_claim_rows imgA (some 0) r0 2 := DeconvOutcome.success.inj hEq
  have hclip : sigmacut_clip (some 0) imgA.data = [[1, 0]] := by
    simp [sigmacut_clip, imgA]
  unfold taper_amended_rows taper_claim_rows at harr
  rw [hclip] at harr
  rw [show imgA.xaxis = [(0 : ℝ), 1] from rfl, show imgA.delx = (1 : ℝ) from rfl,
    show List.length [(0 : ℝ), 1] = 2 from rfl, fftfreq_two, fftshift_pair]
    at harr
  simp only [List.map_cons, List.map_nil] at harr
  rw [amended_prod_imgA, claim_prod_imgA, ifft_mag_pair_real, ifft_mag_pair_real]
    at harr
  simp only [List.cons.injEq, and_true] at harr
  have h2 := harr.2
  have hTgt : T0 < T0 / cR0 := by
    rw [lt_div_iff₀ cR0_pos]
    exact mul_lt_of_lt_one_right T0_pos cR0_lt_one
  have hpos1 : (0 : ℝ) < (T0 / cR0 + 1) / 2 := by
    have := div_pos T0_pos cR0_pos
    linarith
  have hpos2 : (0 : ℝ) < (T0 + 1) / 2 := by linarith [T0_pos]
  rw [abs_of_pos hpos1, abs_of_pos hpos2] at h2
  have : T0 / cR0 = T0 := by linarith
  linarith [hTgt, this.ge]

end
